import Mathlib

/-!
Shallow embedding of the hapi-pino plugin (`index.js`, the `register`
function and its helper closures) and proofs about its event-to-log
routing: tag-to-level resolution, configuration validation, ignore
precedence, payload construction, and request lifecycle records.
-/

set_option maxRecDepth 4000
set_option linter.unusedVariables false

namespace HapiPino

/-- A JavaScript value, as far as the router's data flow needs it. -/
inductive JSVal where
  | undef
  | null
  | bool (b : Bool)
  | num (n : Int)
  | str (s : String)
  | obj (fields : List (String × JSVal))
  | arr (elems : List JSVal)

/-- JavaScript truthiness of a value (NaN aside, which we do not model). -/
def JSVal.truthy : JSVal → Bool
  | .undef => false
  | .null => false
  | .bool b => b
  | .num n => n != 0
  | .str s => s != ""
  | .obj _ => true
  | .arr _ => true

/-- First-match association-list lookup, the analogue of reading a
property off a plain JS object (whose keys are unique). -/
def assocLookup {α β : Type} [DecidableEq α] : List (α × β) → α → Option β
  | [], _ => none
  | (k2, v) :: rest, k => if k2 = k then some v else assocLookup rest k

/-- Number of entries with the given key; used to detect duplicate keys
in a serialized log line. -/
def countKey (l : List (String × JSVal)) (k : String) : Nat :=
  (l.filter (fun p => p.1 == k)).length

/-- An event's tag list rendered as the JS array value `event.tags`. -/
def tagsVal (tags : List String) : JSVal :=
  .arr (tags.map .str)

/-! ### The logger's level tables (`logger.levels.values` / `.labels`) -/

/-- The pino default level-value table, `logger.levels.values`. -/
def levelValuesTable : List (String × Nat) :=
  [("trace", 10), ("debug", 20), ("info", 30), ("warn", 40), ("error", 50), ("fatal", 60)]

/-- Numeric rank of a level name (`logger.levels.values[name]`). -/
def levelValue (name : String) : Option Nat :=
  assocLookup levelValuesTable name

/-- The inverse table `logger.levels.labels`. -/
def levelLabelsTable : List (Nat × String) :=
  [(10, "trace"), (20, "debug"), (30, "info"), (40, "warn"), (50, "error"), (60, "fatal")]

/-- Level name of a numeric rank (`logger.levels.labels[v]`). -/
def levelLabel (v : Nat) : Option String :=
  assocLookup levelLabelsTable v

/-! ### Tag-to-level map (`levelTags` overlaid with `options.tags`) -/

/-- The module constant `levelTags`: each standard severity name maps to
itself. -/
def levelTags : List (String × String) :=
  [("trace", "trace"), ("debug", "debug"), ("info", "info"),
   ("warn", "warn"), ("error", "error"), ("fatal", "fatal")]

/-- `Object.assign({}, levelTags, options.tags)` read at a key: a
user-supplied entry overrides the default entry. -/
def tagToLevels (userTags : List (String × String)) (t : String) : Option String :=
  match assocLookup userTags t with
  | some l => some l
  | none => assocLookup levelTags t

/-- Keys of the merged tag map, `Object.keys(tagToLevels)`. -/
def tagToLevelsKeys (userTags : List (String × String)) : List String :=
  (levelTags.map Prod.fst ++ userTags.map Prod.fst).dedup

/-- The `validTags` check of `register`: every key of the merged map
maps to a recognized level name. -/
def validTagLevels (userTags : List (String × String)) : Bool :=
  (tagToLevelsKeys userTags).all
    (fun k => ((tagToLevels userTags k).bind levelValue).isSome)

/-- `tagToLevelValue[tag]`: the numeric rank of the level a tag maps to
(undefined when the tag is unmapped or its level is unrecognized). -/
def tagToLevelValue (userTags : List (String × String)) (t : String) : Option Nat :=
  (tagToLevels userTags t).bind levelValue

/-! ### logEvent's level resolution loop -/

/-- The `highest` accumulator loop of `logEvent`: for each tag with a
defined, truthy level value exceeding the accumulator, take it. -/
def highestTagLevel (userTags : List (String × String)) (tags : List String) : Nat :=
  tags.foldl
    (fun highest tag =>
      match tagToLevelValue userTags tag with
      | some level => if level != 0 && level > highest then level else highest
      | none => highest)
    0

/-- The level name `logEvent` emits at: `levels.labels[highest]` when
some tag matched, the catch-all `allTags` level otherwise. `none` models
the crash that would follow an unresolvable label (unreachable for a
validated configuration). -/
def logEventLevel (userTags : List (String × String)) (allTags : String)
    (tags : List String) : Option String :=
  let highest := highestTagLevel userTags tags
  if highest > 0 then levelLabel highest else some allTags

/-! ### Requests and configuration -/

/-- The slice of a hapi request the router reads. -/
structure Request where
  path : String
  method : String := "get"
  routeTags : Option (List String) := none
  infoReceived : Int := 0
  infoResponded : Int := 0
  infoCompleted : Option Int := none
  rawRes : JSVal := .obj []
  headersSent : Bool := true
  responseStatusCode : Nat := 200
  responseSource : JSVal := .null
  payload : JSVal := .null
  query : JSVal := .obj []
  params : JSVal := .obj []

/-- An option that may be absent, a boolean, or a per-request predicate
(`logRequestStart` / `logRequestComplete`). -/
inductive TriOpt where
  | undef
  | bool (b : Bool)
  | func (f : Request → Bool)

/-- The `logEvents` option: absent (take the default list), disabled
(`false`/`null`), or an explicit list of event names. -/
inductive LogEventsOpt where
  | undef
  | disabled
  | list (names : List String)

/-- One channel's entry of the `ignoredEventTags` table: the wildcard
string meaning "ignore nothing", or a list of tags to ignore. -/
inductive TagFilter where
  | wildcard
  | list (tags : List String)

/-- The `ignoredEventTags` option object: per-channel overrides. -/
structure IgnoredEventTagsOpt where
  log : Option TagFilter := none
  request : Option TagFilter := none

/-- The module-level mutable `ignoredEventTags` table. -/
structure GlobalTags where
  log : TagFilter
  request : TagFilter

/-- Initial value of the module-level table: both channels wildcard. -/
def initialGlobalTags : GlobalTags :=
  ⟨.wildcard, .wildcard⟩

/-- The spread-merge `register` performs on the module-level table when
`options.ignoredEventTags` is supplied. -/
def mergeGlobalTags (g : GlobalTags) (o : Option IgnoredEventTagsOpt) : GlobalTags :=
  match o with
  | none => g
  | some io => ⟨io.log.getD g.log, io.request.getD g.request⟩

/-- The plugin options the router logic reads. -/
structure Options where
  tags : List (String × String) := []
  allTags : Option String := none
  mergeHapiLogData : Bool := false
  messageKey : Option String := none
  ignorePaths : Option (List String) := none
  ignoreTags : Option (List String) := none
  ignoreFunc : Option (Request → JSVal) := none
  ignoredEventTags : Option IgnoredEventTagsOpt := none
  getChildBindings : Option (Request → List (String × JSVal)) := none
  logRequestStart : TriOpt := .undef
  logRequestComplete : TriOpt := .undef
  logEvents : LogEventsOpt := .undef
  logPayload : Bool := false
  logQueryParams : Bool := false
  logPathParams : Bool := false
  logRouteTags : Bool := false
  log4xxResponseErrors : Bool := false
  customRequestStartMessage : Option (Request → String) := none
  customRequestCompleteMessage : Option (Request → Int → String) := none
  customRequestErrorMessage : Option (Request → JSVal → String) := none

/-- `options.allTags || 'info'` (JS truthiness: the empty string also
falls back). -/
def effAllTags (opts : Options) : String :=
  match opts.allTags with
  | some s => if s = "" then "info" else s
  | none => "info"

/-- `options.messageKey || 'msg'`. -/
def effMessageKey (opts : Options) : String :=
  match opts.messageKey with
  | some s => if s = "" then "msg" else s
  | none => "msg"

/-- `options.logEvents`, after the `undefined` default is filled in;
`none` means all lifecycle events disabled. -/
def effLogEvents (opts : Options) : Option (List String) :=
  match opts.logEvents with
  | .undef => some ["onPostStart", "onPostStop", "response", "request-error"]
  | .disabled => none
  | .list l => some l

/-- `isEnabledLogEvent(options, name)`. -/
def isEnabledLogEvent (opts : Options) (name : String) : Bool :=
  match effLogEvents opts with
  | some l => l.contains name
  | none => false

/-- The serialized request object the default child bindings and the
start record carry (the `req` serializer's output, abstracted). -/
def reqAsVal (req : Request) : JSVal :=
  .obj [("method", .str req.method), ("url", .str req.path)]

/-- `getChildBindings` with its default `(request) => ({ req: request })`. -/
def getChildBindingsOf (opts : Options) (req : Request) : List (String × JSVal) :=
  match opts.getChildBindings with
  | some f => f req
  | none => [("req", reqAsVal req)]

/-- `shouldLogRequestStart`: a function applies per request, a boolean
is constant, anything else yields the constant `false`. -/
def shouldLogRequestStart (opts : Options) (req : Request) : Bool :=
  match opts.logRequestStart with
  | .func f => f req
  | .bool b => b
  | .undef => false

/-- `shouldLogRequestComplete`: as above but the fallback is the
constant `true`. -/
def shouldLogRequestComplete (opts : Options) (req : Request) : Bool :=
  match opts.logRequestComplete with
  | .func f => f req
  | .bool b => b
  | .undef => true

/-! ### Ignore decisions -/

/-- The descending index loop of `isLoggingIgnored` over `ignoreTags`:
it starts one past the end, where `ignoreTags[index]` is `undefined`
and `routeTags.includes(undefined)` is false for string tags. -/
def ignoreTagsMatch (ignoreTags routeTags : List String) : Bool :=
  (List.range (ignoreTags.length + 1)).any
    (fun i =>
      match ignoreTags[i]? with
      | some t => routeTags.contains t
      | none => false)

/-- `isLoggingIgnored(options, request)`: a present `ignoreFunc` decides
alone (its result coerced to boolean); otherwise the `ignorePaths` table
is consulted, then the `ignoreTags` / route-tags intersection. -/
def isLoggingIgnored (opts : Options) (req : Request) : Bool :=
  match opts.ignoreFunc with
  | some f => (f req).truthy
  | none =>
    let pathIgnored :=
      match opts.ignorePaths with
      | some paths => paths.contains req.path
      | none => false
    if pathIgnored then true
    else
      match opts.ignoreTags, req.routeTags with
      | some ignoreTags, some routeTags => ignoreTagsMatch ignoreTags routeTags
      | _, _ => false

/-- `isCustomTagsLoggingIgnored(event, ignoredTags)`. -/
def isCustomTagsLoggingIgnored (eventTags : List String) (ignored : TagFilter) : Bool :=
  match ignored with
  | .wildcard => false
  | .list l => eventTags.any (fun tag => l.contains tag)

/-! ### Log events, records, loggers -/

/-- The hapi event channel of a request event. -/
inductive Channel where
  | internal
  | app
  | error
deriving DecidableEq

/-- A hapi log / request event as the router reads it. -/
structure Event where
  tags : List String := []
  data : JSVal := .undef
  error : Option JSVal := none
  channel : Channel := .app

/-- A logger attached to a request: the no-op `abstract-logging`
instance or a pino child with its bindings. -/
inductive ReqLogger where
  | nullLogger
  | child (bindings : List (String × JSVal))

/-- One emitted log record: its level, the child bindings the line
carries, the log-object fields (in serialization order after the
bindings), and the optional message argument. -/
structure Record where
  level : String
  bindings : List (String × JSVal) := []
  fields : List (String × JSVal)
  msg : Option String := none

/-- All keys a record's serialized line carries, bindings first, as
pino writes them (duplicates are kept, as in the raw JSON text). -/
def Record.allFields (r : Record) : List (String × JSVal) :=
  r.bindings ++ r.fields

/-- `Object.assign(target, source)` on plain objects: target keys keep
their position but take the source's value when overridden; new source
keys follow. -/
def objAssign (target source : List (String × JSVal)) : List (String × JSVal) :=
  target.map (fun p => (p.1, (assocLookup source p.1).getD p.2)) ++
    source.filter (fun p => (assocLookup target p.1).isNone)

/-- The `logObject` built by `logEvent`: `{tags, data}` when merge mode
is off; with merge mode on, a primitive `data` is wrapped under the
message key and then spread over `{tags}` (arrays spread their index
properties; other non-objects contribute nothing). -/
def buildLogObject (mergeHapiLogData : Bool) (messageKey : String)
    (tags : List String) (data : JSVal) : List (String × JSVal) :=
  if mergeHapiLogData then
    match data with
    | .str s => objAssign [("tags", tagsVal tags)] [(messageKey, .str s)]
    | .num n => objAssign [("tags", tagsVal tags)] [(messageKey, .num n)]
    | .obj fs => objAssign [("tags", tagsVal tags)] fs
    | .arr es => objAssign [("tags", tagsVal tags)] (es.enum.map (fun p => (toString p.1, p.2)))
    | _ => [("tags", tagsVal tags)]
  else
    [("tags", tagsVal tags), ("data", data)]

/-- The `logEvent` helper: nothing for the null logger, otherwise one
record at the resolved level carrying the log object (no record models
the crash of an unresolvable label, unreachable once validated). -/
def logEvent (opts : Options) (current : ReqLogger) (event : Event) : List Record :=
  match current with
  | .nullLogger => []
  | .child b =>
    let logObject := buildLogObject opts.mergeHapiLogData (effMessageKey opts) event.tags event.data
    match logEventLevel opts.tags (effAllTags opts) event.tags with
    | some lvl => [{ level := lvl, bindings := b, fields := logObject }]
    | none => []

/-! ### Lifecycle handlers -/

/-- Default or custom request-start message. -/
def requestStartMessage (opts : Options) (req : Request) : String :=
  match opts.customRequestStartMessage with
  | some f => f req
  | none => "request start"

/-- Default or custom request-complete message. -/
def requestCompleteMessage (opts : Options) (req : Request) (responseTime : Int) : String :=
  match opts.customRequestCompleteMessage with
  | some f => f req responseTime
  | none =>
    "[response] " ++ req.method ++ " " ++ req.path ++ " " ++
      (if req.headersSent then toString req.responseStatusCode else "-") ++
      " (" ++ toString responseTime ++ "ms)"

/-- The `message` property of an error value, as a string. -/
def errMessageOf (e : JSVal) : String :=
  match e with
  | .obj fs =>
    match assocLookup fs "message" with
    | some (.str s) => s
    | _ => ""
  | _ => ""

/-- Default or custom request-error message. -/
def requestErrorMessage (opts : Options) (req : Request) (e : JSVal) : String :=
  match opts.customRequestErrorMessage with
  | some f => f req e
  | none => errMessageOf e

/-- The `onRequest` extension: attach the null logger for an ignored
request, otherwise attach a child logger with the computed bindings and,
when request-start logging applies, emit the start record, whose log
object carries the raw request only when the bindings' `req` is falsy
or absent. -/
def onRequestHandler (opts : Options) (req : Request) : ReqLogger × List Record :=
  if isLoggingIgnored opts req then
    (.nullLogger, [])
  else
    let childBindings := getChildBindingsOf opts req
    let records :=
      if shouldLogRequestStart opts req then
        [{ level := "info"
           bindings := childBindings
           fields :=
             match assocLookup childBindings "req" with
             | some v => if v.truthy then [] else [("req", reqAsVal req)]
             | none => [("req", reqAsVal req)]
           msg := some (requestStartMessage opts req) : Record }]
      else []
    (.child childBindings, records)

/-- The `server.events.on('log')` handler: for a tag-ignored event do
nothing; for an error event emit at the error level; otherwise defer to
`logEvent` on the base logger. -/
def logHandler (opts : Options) (g : GlobalTags) (event : Event) : List Record :=
  if isCustomTagsLoggingIgnored event.tags g.log then []
  else
    match event.error with
    | some err => [{ level := "error", fields := [("err", err), ("tags", tagsVal event.tags)] }]
    | none => logEvent opts (.child []) event

/-- The logger the `request` / `response` handlers use: the one already
attached to the request, or a freshly created child. -/
def resolveReqLogger (opts : Options) (req : Request) (attached : Option ReqLogger) : ReqLogger :=
  match attached with
  | some l => l
  | none => .child (getChildBindingsOf opts req)

/-- The `server.events.on('request')` handler: skip internal events
(unless tagged `accept-encoding`) and ignored requests; emit an
error-level record when the event carries an error and `request-error`
logging is enabled; otherwise route app-channel events through
`logEvent` unless their tags are ignored for the request channel. -/
def requestEventHandler (opts : Options) (g : GlobalTags) (req : Request)
    (attached : Option ReqLogger) (event : Event) : List Record :=
  if (event.channel = .internal && !(event.tags.contains "accept-encoding")) ||
      isLoggingIgnored opts req then
    []
  else
    let lg := resolveReqLogger opts req attached
    match event.error with
    | some err =>
      if isEnabledLogEvent opts "request-error" then
        match lg with
        | .nullLogger => []
        | .child b =>
          [{ level := "error"
             bindings := b
             fields := [("tags", tagsVal event.tags), ("err", err)]
             msg := some (requestErrorMessage opts req err) : Record }]
      else if event.channel = .app && !isCustomTagsLoggingIgnored event.tags g.request then
        logEvent opts lg event
      else []
    | none =>
      if event.channel = .app && !isCustomTagsLoggingIgnored event.tags g.request then
        logEvent opts lg event
      else []

/-- The response-time computation of the response handler. -/
def responseTimeOf (req : Request) : Int :=
  (match req.infoCompleted with
   | some c => c
   | none => req.infoResponded) - req.infoReceived

/-- The log-object fields of the completion record: the individually
toggled optional fields (absent rather than `undefined`-valued, as pino
drops them), then the raw response and the response time. -/
def completionFields (opts : Options) (req : Request) : List (String × JSVal) :=
  (if opts.logPayload then [("payload", req.payload)] else []) ++
  (if opts.logQueryParams then [("queryParams", req.query)] else []) ++
  (if opts.logPathParams then [("pathParams", req.params)] else []) ++
  (if opts.logRouteTags then [("tags", (req.routeTags.map tagsVal).getD .undef)] else []) ++
  (if opts.log4xxResponseErrors && (400 ≤ req.responseStatusCode && req.responseStatusCode < 500)
    then [("err", req.responseSource)] else []) ++
  [("res", req.rawRes), ("responseTime", .num (responseTimeOf req))]

/-- The `response` event handler: skip ignored requests and requests
for which completion logging resolves to false; otherwise emit one info
record through the request's logger. -/
def responseHandler (opts : Options) (req : Request) (attached : Option ReqLogger) : List Record :=
  if isLoggingIgnored opts req then []
  else if shouldLogRequestComplete opts req then
    match resolveReqLogger opts req attached with
    | .nullLogger => []
    | .child b =>
      [{ level := "info"
         bindings := b
         fields := completionFields opts req
         msg := some (requestCompleteMessage opts req (responseTimeOf req)) : Record }]
  else []

/-! ### Registration -/

/-- A server wiring performed by `register`. -/
inductive Action where
  | decorate (name : String)
  | ext (point : String)
  | eventsOn (name : String)
deriving DecidableEq

/-- `register`, as far as validation and wiring order go: the tag-level
validation precedes every `server.decorate` / `server.ext` /
`server.events.on` call, so an invalid configuration throws before any
wiring; a valid one performs the wirings in program order, the
`tryAddEvent` ones only when enabled. -/
def register (opts : Options) : Except String (List Action) :=
  if !validTagLevels opts.tags || (levelValue (effAllTags opts)).isNone then
    .error "invalid tag levels"
  else
    .ok ([.decorate "logger", .ext "onRequest", .eventsOn "log", .eventsOn "request"] ++
      (if isEnabledLogEvent opts "response" then [.eventsOn "response"] else []) ++
      (if isEnabledLogEvent opts "onPostStart" then [.ext "onPostStart"] else []) ++
      (if isEnabledLogEvent opts "onPostStop" then [.ext "onPostStop"] else []))

/-- The module-level `ignoredEventTags` table after `register` runs with
the given options (the merge at lines 148-150 of `index.js`). -/
def registerGlobalTags (g : GlobalTags) (opts : Options) : GlobalTags :=
  mergeGlobalTags g opts.ignoredEventTags

/-- Truthiness of a possibly-absent property, as JS sees
`childBindings.req`. -/
def truthyOpt (o : Option JSVal) : Bool :=
  match o with
  | some v => v.truthy
  | none => false

/-- Modelled from the spec's payload description for merge mode: the
spread of the (wrapped) event data merged with the singleton
`tags`-object, read at a key — the data's own fields win, and the
`tags` key is present underneath. -/
def mergedPayloadLookup (tags : List String) (dataFields : List (String × JSVal))
    (k : String) : Option JSVal :=
  match assocLookup dataFields k with
  | some v => some v
  | none => if k = "tags" then some (tagsVal tags) else none

/-! ### Concrete inputs for witnesses and counterexamples -/

/-- A plain request to a `/health` route, ignored in several scenarios. -/
def healthReq : Request :=
  { path := "/health" }

/-- Options ignoring the `/health` path. -/
def ignoreHealthOpts : Options :=
  { ignorePaths := some ["/health"] }

/-- A completed request with both completion and responded timestamps. -/
def timedReq : Request :=
  { path := "/x", infoReceived := 2, infoResponded := 9, infoCompleted := some 5 }

/-- The completion record the default configuration emits for
`timedReq` when no logger was attached yet. -/
def timedReqCompletionRecord : Record :=
  { level := "info"
    bindings := [("req", reqAsVal timedReq)]
    fields := completionFields {} timedReq
    msg := some (requestCompleteMessage {} timedReq (responseTimeOf timedReq)) }

/-- Options enabling request-start logging, with the default child
bindings. -/
def startLoggingOpts : Options :=
  { logRequestStart := .bool true }

/-- A request routed with `startLoggingOpts`. -/
def itemsReq : Request :=
  { path := "/items" }

/-- The start record emitted for `itemsReq` under `startLoggingOpts`:
the bindings carry the request, so the log object adds nothing. -/
def itemsStartRecord : Record :=
  { level := "info"
    bindings := [("req", reqAsVal itemsReq)]
    fields := []
    msg := some "request start" }

/-- The completion record emitted for `itemsReq` under
`startLoggingOpts`, through the logger attached at request start. -/
def itemsCompletionRecord : Record :=
  { level := "info"
    bindings := [("req", reqAsVal itemsReq)]
    fields := completionFields startLoggingOpts itemsReq
    msg := some (requestCompleteMessage startLoggingOpts itemsReq (responseTimeOf itemsReq)) }

/-- An error value with a message, as a route handler would throw. -/
def boomError : JSVal :=
  .obj [("message", .str "boom")]

/-- A request event carrying `boomError` on the error channel. -/
def boomEvent : Event :=
  { tags := [], error := some boomError, channel := .error }

/-! ### Helper lemmas -/

theorem assocLookup_mem_values {α β : Type} [DecidableEq α]
    (l : List (α × β)) (k : α) (v : β) (h : assocLookup l k = some v) :
    v ∈ l.map Prod.snd := by
  induction l with
  | nil => simp [assocLookup] at h
  | cons p rest ih =>
    obtain ⟨k2, v2⟩ := p
    simp only [assocLookup] at h
    by_cases hk : k2 = k
    · simp [hk] at h
      simp [h]
    · simp [hk] at h
      simpa using Or.inr (ih h)

theorem levelValue_mem (s : String) (v : Nat) (h : levelValue s = some v) :
    v = 10 ∨ v = 20 ∨ v = 30 ∨ v = 40 ∨ v = 50 ∨ v = 60 := by
  have := assocLookup_mem_values levelValuesTable s v h
  simpa [levelValuesTable] using this

theorem levelLabel_inverts (v : Nat)
    (h : v = 10 ∨ v = 20 ∨ v = 30 ∨ v = 40 ∨ v = 50 ∨ v = 60) :
    ∃ name, levelLabel v = some name ∧ levelValue name = some v := by
  rcases h with h | h | h | h | h | h <;> subst h
  · exact ⟨"trace", by decide, by decide⟩
  · exact ⟨"debug", by decide, by decide⟩
  · exact ⟨"info", by decide, by decide⟩
  · exact ⟨"warn", by decide, by decide⟩
  · exact ⟨"error", by decide, by decide⟩
  · exact ⟨"fatal", by decide, by decide⟩

theorem foldl_max_eq_or_mem (l : List Nat) (a : Nat) :
    l.foldl max a = a ∨ l.foldl max a ∈ l := by
  induction l generalizing a with
  | nil => simp
  | cons x xs ih =>
    simp only [List.foldl_cons]
    rcases ih (max a x) with h | h
    · rw [h]
      rcases Nat.le_total a x with h2 | h2
      · rw [Nat.max_eq_right h2]
        exact Or.inr (List.mem_cons_self x xs)
      · rw [Nat.max_eq_left h2]
        exact Or.inl rfl
    · exact Or.inr (List.mem_cons_of_mem x h)

theorem le_foldl_max (l : List Nat) (a : Nat) : a ≤ l.foldl max a := by
  induction l generalizing a with
  | nil => simp
  | cons x xs ih =>
    simp only [List.foldl_cons]
    exact Nat.le_trans (Nat.le_max_left a x) (ih (max a x))

theorem mem_le_foldl_max (l : List Nat) (a : Nat) (v : Nat) (hv : v ∈ l) :
    v ≤ l.foldl max a := by
  induction l generalizing a with
  | nil => simp at hv
  | cons x xs ih =>
    simp only [List.foldl_cons]
    rcases List.mem_cons.mp hv with h | h
    · subst h
      exact Nat.le_trans (Nat.le_max_right a v) (le_foldl_max xs (max a v))
    · exact ih (max a x) h

theorem highestTagLevel_eq_foldl_max (userTags : List (String × String)) (tags : List String) :
    highestTagLevel userTags tags = (tags.filterMap (tagToLevelValue userTags)).foldl max 0 := by
  suffices h : ∀ (ts : List String) (a : Nat),
      ts.foldl
        (fun highest tag =>
          match tagToLevelValue userTags tag with
          | some level => if level != 0 && level > highest then level else highest
          | none => highest)
        a = (ts.filterMap (tagToLevelValue userTags)).foldl max a by
    exact h tags 0
  intro ts
  induction ts with
  | nil => intro a; rfl
  | cons t rest ih =>
    intro a
    simp only [List.foldl_cons, List.filterMap_cons]
    cases hf : tagToLevelValue userTags t with
    | none => exact ih a
    | some v =>
      simp only [List.foldl_cons]
      have hstep : (if v != 0 && v > a then v else a) = max a v := by
        by_cases hgt : v > a
        · have hne : v ≠ 0 := by omega
          simp [hgt, hne, Nat.max_eq_right (Nat.le_of_lt hgt), bne_iff_ne]
        · have hle : v ≤ a := Nat.le_of_not_lt hgt
          simp [hgt, Nat.max_eq_left hle]
      rw [hstep, ih (max a v)]

theorem mem_filterMap_ttlv (userTags : List (String × String)) (tags : List String)
    (v : Nat) (h : v ∈ tags.filterMap (tagToLevelValue userTags)) :
    v = 10 ∨ v = 20 ∨ v = 30 ∨ v = 40 ∨ v = 50 ∨ v = 60 := by
  rcases List.mem_filterMap.mp h with ⟨t, _, ht⟩
  rcases Option.bind_eq_some.mp ht with ⟨l, _, hl⟩
  exact levelValue_mem l v hl

/-! ### Claim theorems -/

/-- C1: for a non-error log event with tag set `T`, `logEvent` resolves
the level to the name whose numeric rank is the maximum of
`{M[t] : t ∈ T, M[t] defined}` under the merged tag-to-level map `M`,
and to the catch-all `allTags` level when that set is empty. -/
theorem logEvent_resolves_highest_tag_level (userTags : List (String × String))
    (allTags : String) (tags : List String)
    (hvalid : validTagLevels userTags = true) :
    (tags.filterMap (tagToLevelValue userTags) = [] →
      logEventLevel userTags allTags tags = some allTags) ∧
    (tags.filterMap (tagToLevelValue userTags) ≠ [] →
      ∃ name,
        logEventLevel userTags allTags tags = some name ∧
        levelValue name = some ((tags.filterMap (tagToLevelValue userTags)).foldl max 0) ∧
        (tags.filterMap (tagToLevelValue userTags)).foldl max 0 ∈
          tags.filterMap (tagToLevelValue userTags) ∧
        ∀ v ∈ tags.filterMap (tagToLevelValue userTags),
          v ≤ (tags.filterMap (tagToLevelValue userTags)).foldl max 0) := by
  constructor
  · intro he
    simp [logEventLevel, highestTagLevel_eq_foldl_max, he]
  · intro hne
    rcases List.exists_mem_of_ne_nil _ hne with ⟨x, hx⟩
    have hmax_mem : (tags.filterMap (tagToLevelValue userTags)).foldl max 0 ∈
        tags.filterMap (tagToLevelValue userTags) := by
      rcases foldl_max_eq_or_mem (tags.filterMap (tagToLevelValue userTags)) 0 with h0 | hm
      · exfalso
        have hxle := mem_le_foldl_max (tags.filterMap (tagToLevelValue userTags)) 0 x hx
        rw [h0] at hxle
        rcases mem_filterMap_ttlv userTags tags x hx with h | h | h | h | h | h <;> omega
      · exact hm
    have hrange := mem_filterMap_ttlv userTags tags _ hmax_mem
    obtain ⟨name, hlab, hval⟩ := levelLabel_inverts _ hrange
    have hpos : 0 < (tags.filterMap (tagToLevelValue userTags)).foldl max 0 := by
      rcases hrange with h | h | h | h | h | h <;> omega
    refine ⟨name, ?_, hval, hmax_mem, fun v hv =>
      mem_le_foldl_max (tags.filterMap (tagToLevelValue userTags)) 0 v hv⟩
    simp only [logEventLevel, highestTagLevel_eq_foldl_max]
    rw [if_pos hpos]
    exact hlab

/-- Witness for C1: tags `aaa ↦ info`, `bbb ↦ warn` and event tags
`[aaa, bbb]` resolve to `warn`, the higher-severity level. -/
theorem logEvent_resolves_highest_tag_level_witness :
    validTagLevels [("aaa", "info"), ("bbb", "warn")] = true ∧
    ((["aaa", "bbb"].filterMap (tagToLevelValue [("aaa", "info"), ("bbb", "warn")]) = [] →
      logEventLevel [("aaa", "info"), ("bbb", "warn")] "info" ["aaa", "bbb"] = some "info") ∧
    (["aaa", "bbb"].filterMap (tagToLevelValue [("aaa", "info"), ("bbb", "warn")]) ≠ [] →
      ∃ name,
        logEventLevel [("aaa", "info"), ("bbb", "warn")] "info" ["aaa", "bbb"] = some name ∧
        levelValue name =
          some ((["aaa", "bbb"].filterMap
            (tagToLevelValue [("aaa", "info"), ("bbb", "warn")])).foldl max 0) ∧
        (["aaa", "bbb"].filterMap
            (tagToLevelValue [("aaa", "info"), ("bbb", "warn")])).foldl max 0 ∈
          ["aaa", "bbb"].filterMap (tagToLevelValue [("aaa", "info"), ("bbb", "warn")]) ∧
        ∀ v ∈ ["aaa", "bbb"].filterMap (tagToLevelValue [("aaa", "info"), ("bbb", "warn")]),
          v ≤ (["aaa", "bbb"].filterMap
            (tagToLevelValue [("aaa", "info"), ("bbb", "warn")])).foldl max 0)) :=
  ⟨by decide,
   logEvent_resolves_highest_tag_level [("aaa", "info"), ("bbb", "warn")] "info"
     ["aaa", "bbb"] (by decide)⟩

theorem ignoreTagsMatch_eq_any (it rt : List String) :
    ignoreTagsMatch it rt = it.any (fun t => rt.contains t) := by
  rw [Bool.eq_iff_iff]
  unfold ignoreTagsMatch
  rw [List.any_eq_true, List.any_eq_true]
  constructor
  · rintro ⟨i, _, hi⟩
    cases hidx : it[i]? with
    | none => rw [hidx] at hi; simp at hi
    | some t =>
      rw [hidx] at hi
      rcases List.getElem?_eq_some.mp hidx with ⟨hlt, hget⟩
      exact ⟨t, hget ▸ List.getElem_mem hlt, hi⟩
  · rintro ⟨t, ht, hp⟩
    rcases List.mem_iff_getElem.mp ht with ⟨i, hlt, hget⟩
    refine ⟨i, List.mem_range.mpr (by omega), ?_⟩
    rw [List.getElem?_eq_some.mpr ⟨hlt, hget⟩]
    exact hp

/-- C2: a configured tag mapped to an unrecognized level name, or an
unrecognized catch-all level, makes `register` fail synchronously with
the error `invalid tag levels` before any wiring is performed: the
result carries no decorate / ext / events.on action. -/
theorem register_fails_on_invalid_tag_levels (opts : Options)
    (h : validTagLevels opts.tags = false ∨ (levelValue (effAllTags opts)).isNone = true) :
    register opts = Except.error "invalid tag levels" ∧
      ∀ acts : List Action, register opts ≠ Except.ok acts := by
  have herr : register opts = Except.error "invalid tag levels" := by
    rcases h with h | h <;> simp [register, h]
  exact ⟨herr, fun acts hok => by rw [herr] at hok; exact Except.noConfusion hok⟩

/-- Witness for C2: the tag map `foo ↦ bogus` is rejected. -/
theorem register_fails_on_invalid_tag_levels_witness :
    (validTagLevels [("foo", "bogus")] = false ∨
      (levelValue (effAllTags { tags := [("foo", "bogus")] })).isNone = true) ∧
    (register { tags := [("foo", "bogus")] } = Except.error "invalid tag levels" ∧
      ∀ acts : List Action,
        register { tags := [("foo", "bogus")] } ≠ Except.ok acts) :=
  ⟨Or.inl (by decide),
   register_fails_on_invalid_tag_levels { tags := [("foo", "bogus")] } (Or.inl (by decide))⟩

/-- C3: a present `ignoreFunc` decides ignoring alone — the decision is
the boolean coercion of its result, unchanged under arbitrary
`ignorePaths` / `ignoreTags`; with `ignoreFunc` absent the decision is
the path-list match, then the `ignoreTags` / route-tags
intersection. -/
theorem ignoreFunc_takes_precedence (opts : Options) (req : Request) :
    (∀ f, opts.ignoreFunc = some f →
      ∀ p t,
        isLoggingIgnored
          { opts with ignorePaths := p, ignoreTags := t } req = (f req).truthy) ∧
    (opts.ignoreFunc = none →
      isLoggingIgnored opts req =
        ((match opts.ignorePaths with
          | some paths => paths.contains req.path
          | none => false) ||
         (match opts.ignoreTags, req.routeTags with
          | some it, some rt => it.any (fun tag => rt.contains tag)
          | _, _ => false))) := by
  constructor
  · intro f hf p t
    simp [isLoggingIgnored, hf]
  · intro hf
    simp only [isLoggingIgnored, hf]
    cases hpi : (match opts.ignorePaths with
        | some paths => paths.contains req.path
        | none => false) with
    | true => simp [hpi]
    | false =>
      simp only [hpi, if_false, Bool.false_or]
      cases opts.ignoreTags with
      | none => rfl
      | some it =>
        cases req.routeTags with
        | none => rfl
        | some rt => exact ignoreTagsMatch_eq_any it rt

/-- Witness for C3: an `ignoreFunc` returning the number 0 yields a
false decision even though the path and route tags both match the
ignore lists. -/
theorem ignoreFunc_takes_precedence_witness :
    ((∀ f, ({ ignoreFunc := some (fun _ => JSVal.num 0) } : Options).ignoreFunc = some f →
      ∀ p t,
        isLoggingIgnored
          { ({ ignoreFunc := some (fun _ => JSVal.num 0) } : Options) with
              ignorePaths := p, ignoreTags := t }
          { path := "/health", routeTags := some ["secret"] } = (f { path := "/health", routeTags := some ["secret"] }).truthy) ∧
    (({ ignoreFunc := some (fun _ => JSVal.num 0) } : Options).ignoreFunc = none →
      isLoggingIgnored ({ ignoreFunc := some (fun _ => JSVal.num 0) } : Options)
          { path := "/health", routeTags := some ["secret"] } =
        ((match ({ ignoreFunc := some (fun _ => JSVal.num 0) } : Options).ignorePaths with
          | some paths => paths.contains ({ path := "/health", routeTags := some ["secret"] } : Request).path
          | none => false) ||
         (match ({ ignoreFunc := some (fun _ => JSVal.num 0) } : Options).ignoreTags,
            ({ path := "/health", routeTags := some ["secret"] } : Request).routeTags with
          | some it, some rt => it.any (fun tag => rt.contains tag)
          | _, _ => false)))) ∧
    isLoggingIgnored
      { ignoreFunc := some (fun _ => JSVal.num 0), ignorePaths := some ["/health"],
        ignoreTags := some ["secret"] }
      { path := "/health", routeTags := some ["secret"] } = false :=
  ⟨ignoreFunc_takes_precedence { ignoreFunc := some (fun _ => JSVal.num 0) }
      { path := "/health", routeTags := some ["secret"] },
   by
    have := (ignoreFunc_takes_precedence { ignoreFunc := some (fun _ => JSVal.num 0) }
        { path := "/health", routeTags := some ["secret"] }).1
        (fun _ => JSVal.num 0) rfl (some ["/health"]) (some ["secret"])
    simpa [JSVal.truthy] using this⟩

theorem assocLookup_append (l₁ l₂ : List (String × JSVal)) (k : String) :
    assocLookup (l₁ ++ l₂) k =
      (match assocLookup l₁ k with
       | some v => some v
       | none => assocLookup l₂ k) := by
  induction l₁ with
  | nil => simp [assocLookup]
  | cons p rest ih =>
    obtain ⟨k2, v⟩ := p
    by_cases hk : k2 = k <;> simp [assocLookup, hk, ih]

theorem assocLookup_map_values (t : List (String × JSVal))
    (g : String → JSVal → JSVal) (k : String) :
    assocLookup (t.map (fun p => (p.1, g p.1 p.2))) k = (assocLookup t k).map (g k) := by
  induction t with
  | nil => simp [assocLookup]
  | cons p rest ih =>
    obtain ⟨k2, v⟩ := p
    by_cases hk : k2 = k
    · subst hk
      simp [assocLookup]
    · simp [assocLookup, hk, ih]

theorem assocLookup_filter_out (t s : List (String × JSVal)) (k : String)
    (hk : assocLookup t k = none) :
    assocLookup (s.filter (fun p => (assocLookup t p.1).isNone)) k = assocLookup s k := by
  induction s with
  | nil => simp
  | cons p rest ih =>
    obtain ⟨k2, v⟩ := p
    by_cases hk2 : k2 = k
    · subst hk2
      simp [List.filter_cons, hk, assocLookup]
    · cases hkeep : (assocLookup t k2).isNone with
      | true =>
        rw [List.filter_cons, if_pos (by simp [hkeep])]
        simp [assocLookup, hk2, ih]
      | false =>
        rw [List.filter_cons, if_neg (by simp [hkeep])]
        rw [ih]
        simp [assocLookup, hk2]

theorem objAssign_lookup (t s : List (String × JSVal)) (k : String) :
    assocLookup (objAssign t s) k =
      (match assocLookup s k with
       | some v => some v
       | none => assocLookup t k) := by
  unfold objAssign
  rw [assocLookup_append, assocLookup_map_values t (fun k2 v => (assocLookup s k2).getD v) k]
  cases ht : assocLookup t k with
  | some v =>
    cases hs : assocLookup s k <;> simp [Option.map, Option.getD]
  | none =>
    rw [show Option.map (fun v => (assocLookup s k).getD v) none = none from rfl]
    rw [assocLookup_filter_out t s k ht]
    cases hs : assocLookup s k <;> simp

theorem lookup_singleton_tags (tags : List String) (k : String) :
    assocLookup [("tags", tagsVal tags)] k =
      (if k = "tags" then some (tagsVal tags) else none) := by
  by_cases hk : k = "tags" <;> simp [assocLookup, hk]
  · intro h; exact absurd h.symm hk

/-- C4: with merge mode off the payload is exactly `{tags, data}`; with
merge mode on, string and number data are wrapped under the message key
and the payload reads as that wrapper spread over `{tags}`; object data
reads as its own fields spread over `{tags}`. -/
theorem logEvent_payload_shape (messageKey : String) (tags : List String) :
    (∀ data, buildLogObject false messageKey tags data =
      [("tags", tagsVal tags), ("data", data)]) ∧
    (∀ s k, assocLookup (buildLogObject true messageKey tags (.str s)) k =
      mergedPayloadLookup tags [(messageKey, .str s)] k) ∧
    (∀ n k, assocLookup (buildLogObject true messageKey tags (.num n)) k =
      mergedPayloadLookup tags [(messageKey, .num n)] k) ∧
    (∀ fs k, assocLookup (buildLogObject true messageKey tags (.obj fs)) k =
      mergedPayloadLookup tags fs k) := by
  refine ⟨fun data => rfl, fun s k => ?_, fun n k => ?_, fun fs k => ?_⟩
  · have h : buildLogObject true messageKey tags (.str s) =
        objAssign [("tags", tagsVal tags)] [(messageKey, .str s)] := rfl
    rw [h, objAssign_lookup]
    cases hs : assocLookup [(messageKey, JSVal.str s)] k with
    | some v => simp [mergedPayloadLookup, hs]
    | none => simp [mergedPayloadLookup, hs, lookup_singleton_tags]
  · have h : buildLogObject true messageKey tags (.num n) =
        objAssign [("tags", tagsVal tags)] [(messageKey, .num n)] := rfl
    rw [h, objAssign_lookup]
    cases hs : assocLookup [(messageKey, JSVal.num n)] k with
    | some v => simp [mergedPayloadLookup, hs]
    | none => simp [mergedPayloadLookup, hs, lookup_singleton_tags]
  · have h : buildLogObject true messageKey tags (.obj fs) =
        objAssign [("tags", tagsVal tags)] fs := rfl
    rw [h, objAssign_lookup]
    cases hs : assocLookup fs k with
    | some v => simp [mergedPayloadLookup, hs]
    | none => simp [mergedPayloadLookup, hs, lookup_singleton_tags]

theorem completionFields_responseTime (opts : Options) (req : Request) :
    assocLookup (completionFields opts req) "responseTime" =
      some (.num (responseTimeOf req)) := by
  unfold completionFields
  cases opts.logPayload <;> cases opts.logQueryParams <;> cases opts.logPathParams <;>
    cases opts.logRouteTags <;>
    cases (opts.log4xxResponseErrors &&
      (400 ≤ req.responseStatusCode && req.responseStatusCode < 500)) <;>
    rfl

theorem completionFields_no_req (opts : Options) (req : Request) :
    countKey (completionFields opts req) "req" = 0 := by
  unfold completionFields countKey
  cases opts.logPayload <;> cases opts.logQueryParams <;> cases opts.logPathParams <;>
    cases opts.logRouteTags <;>
    cases (opts.log4xxResponseErrors &&
      (400 ≤ req.responseStatusCode && req.responseStatusCode < 500)) <;>
    rfl

/-- C5: an ignored request produces zero log records on every lifecycle
hook: the request-start extension attaches the no-op logger and emits
nothing, the request-event handler emits nothing for any event, and the
response handler emits nothing. -/
theorem ignored_request_emits_nothing (opts : Options) (req : Request)
    (h : isLoggingIgnored opts req = true) :
    onRequestHandler opts req = (.nullLogger, []) ∧
    (∀ g attached event, requestEventHandler opts g req attached event = []) ∧
    (∀ attached, responseHandler opts req attached = []) := by
  refine ⟨?_, fun g attached event => ?_, fun attached => ?_⟩
  · simp [onRequestHandler, h]
  · simp [requestEventHandler, h]
  · simp [responseHandler, h]

/-- Witness for C5: with `ignorePaths` listing `/health`, a request to
`/health` is ignored and all three hooks emit nothing. -/
theorem ignored_request_emits_nothing_witness :
    isLoggingIgnored ignoreHealthOpts healthReq = true ∧
    (onRequestHandler ignoreHealthOpts healthReq = (.nullLogger, []) ∧
    (∀ g attached event,
      requestEventHandler ignoreHealthOpts g healthReq attached event = []) ∧
    (∀ attached, responseHandler ignoreHealthOpts healthReq attached = [])) :=
  ⟨rfl, ignored_request_emits_nothing ignoreHealthOpts healthReq rfl⟩

/-- C7: the completion record's `responseTime` field is
`info.completed - info.received` when the completion timestamp is
defined, and `info.responded - info.received` otherwise. -/
theorem completion_record_response_time (opts : Options) (req : Request)
    (attached : Option ReqLogger) (r : Record)
    (h : responseHandler opts req attached = [r]) :
    (∀ c, req.infoCompleted = some c →
      assocLookup r.fields "responseTime" = some (.num (c - req.infoReceived))) ∧
    (req.infoCompleted = none →
      assocLookup r.fields "responseTime" =
        some (.num (req.infoResponded - req.infoReceived))) := by
  have hf : r.fields = completionFields opts req := by
    unfold responseHandler at h
    cases hig : isLoggingIgnored opts req with
    | true => simp [hig] at h
    | false =>
      cases hc : shouldLogRequestComplete opts req with
      | false => simp [hig, hc] at h
      | true =>
        cases hl : resolveReqLogger opts req attached with
        | nullLogger => simp [hig, hc, hl] at h
        | child b =>
          simp only [hig, hc, hl, Bool.false_eq_true, if_false, if_true] at h
          rw [← List.singleton_inj.mp h]
  constructor
  · intro c hc
    rw [hf, completionFields_responseTime]
    simp [responseTimeOf, hc]
  · intro hc
    rw [hf, completionFields_responseTime]
    simp [responseTimeOf, hc]

/-- Witness for C7: a request received at 2, responded at 9 and
completed at 5 gets `responseTime = 3`, from the completion
timestamp. -/
theorem completion_record_response_time_witness :
    responseHandler {} timedReq none = [timedReqCompletionRecord] ∧
    ((∀ c, timedReq.infoCompleted = some c →
      assocLookup timedReqCompletionRecord.fields "responseTime" =
        some (.num (c - timedReq.infoReceived))) ∧
    (timedReq.infoCompleted = none →
      assocLookup timedReqCompletionRecord.fields "responseTime" =
        some (.num (timedReq.infoResponded - timedReq.infoReceived)))) :=
  ⟨rfl, completion_record_response_time {} timedReq none timedReqCompletionRecord rfl⟩

/-- C10: an absent `logRequestStart` yields the constant-false start
predicate, so no start record is ever emitted, while an absent
`logRequestComplete` yields the constant-true completion predicate, so
every non-ignored request with a usable logger gets exactly one
completion record. -/
theorem absent_start_complete_defaults (opts : Options) (req : Request)
    (hstart : opts.logRequestStart = .undef)
    (hcomplete : opts.logRequestComplete = .undef) :
    shouldLogRequestStart opts req = false ∧
    (onRequestHandler opts req).2 = [] ∧
    shouldLogRequestComplete opts req = true ∧
    (isLoggingIgnored opts req = false →
      ∀ attached, (∀ b, attached = some b → b ≠ .nullLogger) →
        ∃ r, responseHandler opts req attached = [r]) := by
  have hs : shouldLogRequestStart opts req = false := by
    simp [shouldLogRequestStart, hstart]
  have hc : shouldLogRequestComplete opts req = true := by
    simp [shouldLogRequestComplete, hcomplete]
  refine ⟨hs, ?_, hc, ?_⟩
  · unfold onRequestHandler
    cases hig : isLoggingIgnored opts req with
    | true => simp [hig]
    | false => simp [hig, hs]
  · intro hig attached hnn
    unfold responseHandler
    rw [hig, hc]
    cases attached with
    | none => exact ⟨_, rfl⟩
    | some l =>
      cases l with
      | nullLogger => exact absurd rfl (hnn .nullLogger rfl)
      | child b => exact ⟨_, rfl⟩

/-- Witness for C10: the default (empty) options on a plain request:
no start record, one completion record. -/
theorem absent_start_complete_defaults_witness :
    ({} : Options).logRequestStart = .undef ∧
    ({} : Options).logRequestComplete = .undef ∧
    (shouldLogRequestStart {} timedReq = false ∧
    (onRequestHandler {} timedReq).2 = [] ∧
    shouldLogRequestComplete {} timedReq = true ∧
    (isLoggingIgnored {} timedReq = false →
      ∀ attached, (∀ b, attached = some b → b ≠ .nullLogger) →
        ∃ r, responseHandler {} timedReq attached = [r])) :=
  ⟨rfl, rfl, absent_start_complete_defaults {} timedReq rfl rfl⟩

/-- C8: an event carrying an error emits at the error level with the
error attached under `err`: on the server-log channel whenever its tags
are not suppressed, and on the request channel whenever `request-error`
logging is enabled, the request is not ignored, the event is not an
internal one without the `accept-encoding` tag, and the request's
logger is a real child logger. -/
theorem error_events_emit_at_error_level (opts : Options) (g : GlobalTags)
    (req : Request) (attached : Option ReqLogger) (event : Event) (err : JSVal)
    (herr : event.error = some err) :
    (isCustomTagsLoggingIgnored event.tags g.log = false →
      logHandler opts g event =
        [{ level := "error", fields := [("err", err), ("tags", tagsVal event.tags)] }]) ∧
    (isEnabledLogEvent opts "request-error" = true →
      isLoggingIgnored opts req = false →
      (event.channel = Channel.internal → event.tags.contains "accept-encoding" = true) →
      ∀ b, resolveReqLogger opts req attached = .child b →
        requestEventHandler opts g req attached event =
          [{ level := "error", bindings := b
             fields := [("tags", tagsVal event.tags), ("err", err)]
             msg := some (requestErrorMessage opts req err) }]) := by
  constructor
  · intro hig
    simp [logHandler, hig, herr]
  · intro hen hig hch b hb
    have hguard : (decide (event.channel = Channel.internal) &&
        !(event.tags.contains "accept-encoding")) = false := by
      by_cases hc : event.channel = Channel.internal
      · rw [hc, hch hc]
        rfl
      · simp [hc]
    unfold requestEventHandler
    rw [hig, hb]
    simp only [hguard, Bool.false_or, Bool.false_eq_true, if_false]
    rw [herr]
    simp [hen]

/-- Witness for C8: a `boom` error event on the server-log channel and
on the request channel of a plain request, under default options. -/
theorem error_events_emit_at_error_level_witness :
    boomEvent.error = some boomError ∧
    ((isCustomTagsLoggingIgnored boomEvent.tags initialGlobalTags.log = false →
      logHandler {} initialGlobalTags boomEvent =
        [{ level := "error", fields := [("err", boomError), ("tags", tagsVal boomEvent.tags)] }]) ∧
    (isEnabledLogEvent {} "request-error" = true →
      isLoggingIgnored {} timedReq = false →
      (boomEvent.channel = Channel.internal →
        boomEvent.tags.contains "accept-encoding" = true) →
      ∀ b, resolveReqLogger {} timedReq none = .child b →
        requestEventHandler {} initialGlobalTags timedReq none boomEvent =
          [{ level := "error", bindings := b
             fields := [("tags", tagsVal boomEvent.tags), ("err", boomError)]
             msg := some (requestErrorMessage {} timedReq boomError) }])) :=
  ⟨rfl, error_events_emit_at_error_level {} initialGlobalTags timedReq none boomEvent
    boomError rfl⟩

/-- C9: registering twice with the same configuration leaves the shared
module-level ignored-event-tags table exactly where one registration
leaves it, so both instances take identical routing and suppression
decisions on every injected event. -/
theorem double_registration_same_decisions (g : GlobalTags) (opts : Options) :
    registerGlobalTags (registerGlobalTags g opts) opts = registerGlobalTags g opts ∧
    (∀ event,
      logHandler opts (registerGlobalTags (registerGlobalTags g opts) opts) event =
        logHandler opts (registerGlobalTags g opts) event) ∧
    (∀ req attached event,
      requestEventHandler opts (registerGlobalTags (registerGlobalTags g opts) opts)
          req attached event =
        requestEventHandler opts (registerGlobalTags g opts) req attached event) := by
  have hidem : registerGlobalTags (registerGlobalTags g opts) opts =
      registerGlobalTags g opts := by
    unfold registerGlobalTags mergeGlobalTags
    cases opts.ignoredEventTags with
    | none => rfl
    | some io =>
      obtain ⟨iol, ior⟩ := io
      cases iol <;> cases ior <;> rfl
  exact ⟨hidem, fun event => by rw [hidem], fun req attached event => by rw [hidem]⟩

theorem countKey_append (a b : List (String × JSVal)) (k : String) :
    countKey (a ++ b) k = countKey a k + countKey b k := by
  simp [countKey, List.filter_append]

/-- C6 counterexample: under `logRequestStart := true` with the default
child bindings `(request) => ({req: request})`, the `req` field appears
in the start record and in the completion record — both carry it via
the bindings — so it does not appear in exactly one of the two. -/
theorem req_field_in_both_records :
    (onRequestHandler startLoggingOpts itemsReq).2 = [itemsStartRecord] ∧
    responseHandler startLoggingOpts itemsReq
        (some (.child [("req", reqAsVal itemsReq)])) = [itemsCompletionRecord] ∧
    countKey itemsStartRecord.allFields "req" = 1 ∧
    countKey itemsCompletionRecord.allFields "req" = 1 ∧
    ¬(countKey itemsStartRecord.allFields "req" +
        countKey itemsCompletionRecord.allFields "req" = 1) :=
  ⟨rfl, rfl, rfl, rfl, by decide⟩

/-- C6 amended: the start record's log object carries the raw request
iff the computed child bindings' `req` property is absent or falsy (a
truthiness check, not mere field presence); when the bindings carry a
truthy `req` — as the default bindings do — the start and the completion
record each carry the `req` key exactly once, via the bindings. -/
theorem start_record_req_inclusion (opts : Options) (req : Request)
    (hig : isLoggingIgnored opts req = false)
    (hstart : shouldLogRequestStart opts req = true) :
    (truthyOpt (assocLookup (getChildBindingsOf opts req) "req") = false →
      (onRequestHandler opts req).2 =
        [{ level := "info", bindings := getChildBindingsOf opts req
           fields := [("req", reqAsVal req)]
           msg := some (requestStartMessage opts req) }]) ∧
    (truthyOpt (assocLookup (getChildBindingsOf opts req) "req") = true →
      (onRequestHandler opts req).2 =
        [{ level := "info", bindings := getChildBindingsOf opts req
           fields := []
           msg := some (requestStartMessage opts req) }] ∧
      (countKey (getChildBindingsOf opts req) "req" = 1 →
        (∀ r ∈ (onRequestHandler opts req).2, countKey r.allFields "req" = 1) ∧
        (shouldLogRequestComplete opts req = true →
          ∀ r ∈ responseHandler opts req
              (some (.child (getChildBindingsOf opts req))),
            countKey r.allFields "req" = 1))) := by
  have hrec : (onRequestHandler opts req).2 =
      [{ level := "info", bindings := getChildBindingsOf opts req
         fields :=
           match assocLookup (getChildBindingsOf opts req) "req" with
           | some v => if v.truthy then [] else [("req", reqAsVal req)]
           | none => [("req", reqAsVal req)]
         msg := some (requestStartMessage opts req) }] := by
    unfold onRequestHandler
    rw [hig]
    simp [hstart]
  constructor
  · intro ht
    rw [hrec]
    cases hl : assocLookup (getChildBindingsOf opts req) "req" with
    | none => rfl
    | some v =>
      rw [hl] at ht
      simp only [truthyOpt] at ht
      simp [ht]
  · intro ht
    cases hl : assocLookup (getChildBindingsOf opts req) "req" with
    | none => rw [hl] at ht; simp [truthyOpt] at ht
    | some v =>
      rw [hl] at ht
      simp only [truthyOpt] at ht
      have hrec2 : (onRequestHandler opts req).2 =
          [{ level := "info", bindings := getChildBindingsOf opts req
             fields := []
             msg := some (requestStartMessage opts req) }] := by
        rw [hrec, hl]
        simp [ht]
      refine ⟨hrec2, fun hcount => ⟨?_, ?_⟩⟩
      · intro r hr
        rw [hrec2] at hr
        rcases List.mem_singleton.mp hr with rfl
        show countKey (getChildBindingsOf opts req ++ []) "req" = 1
        rw [countKey_append, hcount]
        rfl
      · intro hcomp r hr
        unfold responseHandler at hr
        rw [hig, hcomp] at hr
        simp only [resolveReqLogger, Bool.false_eq_true, if_false, if_true] at hr
        rcases List.mem_singleton.mp hr with rfl
        show countKey (getChildBindingsOf opts req ++ completionFields opts req) "req" = 1
        rw [countKey_append, hcount, completionFields_no_req]

/-- Witness for the amended C6: `logRequestStart := true` with default
bindings on a plain request — the truthy `req` binding suppresses the
log object's raw request, and each record carries `req` once. -/
theorem start_record_req_inclusion_witness :
    isLoggingIgnored startLoggingOpts itemsReq = false ∧
    shouldLogRequestStart startLoggingOpts itemsReq = true ∧
    ((truthyOpt (assocLookup (getChildBindingsOf startLoggingOpts itemsReq) "req") = false →
      (onRequestHandler startLoggingOpts itemsReq).2 =
        [{ level := "info", bindings := getChildBindingsOf startLoggingOpts itemsReq
           fields := [("req", reqAsVal itemsReq)]
           msg := some (requestStartMessage startLoggingOpts itemsReq) }]) ∧
    (truthyOpt (assocLookup (getChildBindingsOf startLoggingOpts itemsReq) "req") = true →
      (onRequestHandler startLoggingOpts itemsReq).2 =
        [{ level := "info", bindings := getChildBindingsOf startLoggingOpts itemsReq
           fields := []
           msg := some (requestStartMessage startLoggingOpts itemsReq) }] ∧
      (countKey (getChildBindingsOf startLoggingOpts itemsReq) "req" = 1 →
        (∀ r ∈ (onRequestHandler startLoggingOpts itemsReq).2,
          countKey r.allFields "req" = 1) ∧
        (shouldLogRequestComplete startLoggingOpts itemsReq = true →
          ∀ r ∈ responseHandler startLoggingOpts itemsReq
              (some (.child (getChildBindingsOf startLoggingOpts itemsReq))),
            countKey r.allFields "req" = 1)))) :=
  ⟨rfl, rfl, start_record_req_inclusion startLoggingOpts itemsReq rfl rfl⟩

end HapiPino
